import Mathlib

/-!
Verification of the RAG module (facade + Qdrant provider) against its
natural-language specification.  The TypeScript source is shallowly embedded:
JS strings become lists of characters, JS objects become association lists,
the external backend clients become explicit function parameters, and the
while-loops of the source become fuel-indexed recursions (with theorems
showing the fuel does not matter in the situations the spec covers).
-/

set_option autoImplicit false

namespace RagSpec

/-- JS strings are modelled as lists of UTF-16 code units; a chunk is a
contiguous sublist, as produced by text.substring. -/
abbrev JsStr := List Char

/-- The while-loop of simpleChunker (provider source, lines 227-233):
while i < text.length, push text.substring(i, min(i+chunkSize, text.length)),
advance i by chunkSize - overlap, break when the window reached the end.
The extra Nat is fuel for the loop; text.length steps suffice whenever
overlap < chunkSize (proved below), matching the JS loop's termination. -/
def chunkLoop (text : JsStr) (chunkSize overlap : Nat) : Nat → Nat → List JsStr
  | _, 0 => []
  | i, fuel + 1 =>
    if i < text.length then
      let e := min (i + chunkSize) text.length
      let c := (text.drop i).take (e - i)
      if e = text.length then [c]
      else c :: chunkLoop text chunkSize overlap (i + (chunkSize - overlap)) fuel
    else []

/-- The same loop, collecting the window start offsets instead of the chunks. -/
def chunkStartsLoop (text : JsStr) (chunkSize overlap : Nat) : Nat → Nat → List Nat
  | _, 0 => []
  | i, fuel + 1 =>
    if i < text.length then
      let e := min (i + chunkSize) text.length
      if e = text.length then [i]
      else i :: chunkStartsLoop text chunkSize overlap (i + (chunkSize - overlap)) fuel
    else []

/-- simpleChunker from the provider source (lines 221-235): if the text fits in
one window return it whole, otherwise run the sliding-window loop. -/
def simpleChunker (text : JsStr) (chunkSize overlap : Nat) : List JsStr :=
  if text.length ≤ chunkSize then [text]
  else chunkLoop text chunkSize overlap 0 text.length

/-- The sequence of window start offsets used by simpleChunker. -/
def chunkStarts (text : JsStr) (chunkSize overlap : Nat) : List Nat :=
  if text.length ≤ chunkSize then [0]
  else chunkStartsLoop text chunkSize overlap 0 text.length

/-- simpleChunker with the source's default parameters chunkSize = 300,
overlap = 50 (the form addDocument actually calls). -/
def simpleChunkerDefault (text : JsStr) : List JsStr :=
  simpleChunker text 300 50

theorem chunkLoop_fuel_irrel (text : JsStr) (chunkSize overlap : Nat)
    (hov : overlap < chunkSize) :
    ∀ fuel₁ fuel₂ i, text.length - i ≤ fuel₁ → text.length - i ≤ fuel₂ →
      chunkLoop text chunkSize overlap i fuel₁ = chunkLoop text chunkSize overlap i fuel₂ := by
  intro fuel₁
  induction fuel₁ with
  | zero =>
    intro fuel₂ i h₁ h₂
    have hi : ¬ i < text.length := by omega
    cases fuel₂ with
    | zero => rfl
    | succ g => simp [chunkLoop, hi]
  | succ f ih =>
    intro fuel₂ i h₁ h₂
    cases fuel₂ with
    | zero =>
      have hi : ¬ i < text.length := by omega
      simp [chunkLoop, hi]
    | succ g =>
      by_cases hi : i < text.length
      · simp only [chunkLoop, hi, if_true]
        by_cases he : min (i + chunkSize) text.length = text.length
        · simp [he]
        · simp only [he, if_false]
          have hrec := ih g (i + (chunkSize - overlap)) (by omega) (by omega)
          rw [hrec]
      · simp [chunkLoop, hi]

theorem chunkLoop_eq_map_starts (text : JsStr) (chunkSize overlap : Nat) :
    ∀ fuel i, chunkLoop text chunkSize overlap i fuel =
      (chunkStartsLoop text chunkSize overlap i fuel).map
        (fun j => (text.drop j).take (min (j + chunkSize) text.length - j)) := by
  intro fuel
  induction fuel with
  | zero => intro i; rfl
  | succ f ih =>
    intro i
    by_cases hi : i < text.length
    · simp only [chunkLoop, chunkStartsLoop, hi, if_true]
      by_cases he : min (i + chunkSize) text.length = text.length
      · simp [he]
      · simp [he, ih]
    · simp [chunkLoop, chunkStartsLoop, hi]

theorem chunkStartsLoop_head (text : JsStr) (chunkSize overlap : Nat) :
    ∀ fuel i x, (chunkStartsLoop text chunkSize overlap i fuel).head? = some x → x = i := by
  intro fuel i x h
  cases fuel with
  | zero => simp [chunkStartsLoop] at h
  | succ f =>
    by_cases hi : i < text.length
    · by_cases he : min (i + chunkSize) text.length = text.length
      · simp [chunkStartsLoop, hi, he] at h
        omega
      · simp [chunkStartsLoop, hi, he] at h
        omega
    · simp [chunkStartsLoop, hi] at h

theorem chunkStartsLoop_chain (text : JsStr) (chunkSize overlap : Nat) :
    ∀ fuel i, List.Chain' (fun a b => b = a + (chunkSize - overlap))
      (chunkStartsLoop text chunkSize overlap i fuel) := by
  intro fuel
  induction fuel with
  | zero => intro i; simp [chunkStartsLoop]
  | succ f ih =>
    intro i
    by_cases hi : i < text.length
    · by_cases he : min (i + chunkSize) text.length = text.length
      · simp [chunkStartsLoop, hi, he]
      · simp only [chunkStartsLoop, hi, if_true, he, if_false]
        refine List.Chain'.cons' (ih _) ?_
        intro y hy
        have := chunkStartsLoop_head text chunkSize overlap f (i + (chunkSize - overlap)) y hy
        omega
    · simp [chunkStartsLoop, hi]

theorem chunkStartsLoop_lb (text : JsStr) (chunkSize overlap : Nat) :
    ∀ fuel i j, j ∈ chunkStartsLoop text chunkSize overlap i fuel → i ≤ j := by
  intro fuel
  induction fuel with
  | zero => intro i j h; simp [chunkStartsLoop] at h
  | succ f ih =>
    intro i j h
    by_cases hi : i < text.length
    · by_cases he : min (i + chunkSize) text.length = text.length
      · simp [chunkStartsLoop, hi, he] at h
        omega
      · simp only [chunkStartsLoop, hi, if_true, he, if_false, List.mem_cons] at h
        rcases h with h | h
        · omega
        · have := ih _ _ h
          omega
    · simp [chunkStartsLoop, hi] at h

theorem chunkStartsLoop_pairwise (text : JsStr) (chunkSize overlap : Nat)
    (hov : overlap < chunkSize) :
    ∀ fuel i, List.Pairwise (fun a b => a < b)
      (chunkStartsLoop text chunkSize overlap i fuel) := by
  intro fuel
  induction fuel with
  | zero => intro i; simp [chunkStartsLoop]
  | succ f ih =>
    intro i
    by_cases hi : i < text.length
    · by_cases he : min (i + chunkSize) text.length = text.length
      · simp [chunkStartsLoop, hi, he]
      · simp only [chunkStartsLoop, hi, if_true, he, if_false]
        refine List.Pairwise.cons ?_ (ih _)
        intro j hj
        have := chunkStartsLoop_lb text chunkSize overlap f (i + (chunkSize - overlap)) j hj
        omega
    · simp [chunkStartsLoop, hi]

theorem chunkLoop_chunk_ne_nil (text : JsStr) (chunkSize overlap : Nat)
    (hcs : 1 ≤ chunkSize) :
    ∀ fuel i c, c ∈ chunkLoop text chunkSize overlap i fuel → c ≠ [] := by
  intro fuel
  induction fuel with
  | zero => intro i c h; simp [chunkLoop] at h
  | succ f ih =>
    intro i c h
    by_cases hi : i < text.length
    · have hlen : ((text.drop i).take (min (i + chunkSize) text.length - i)).length =
          min (min (i + chunkSize) text.length - i) (text.length - i) := by
        simp [List.length_take, List.length_drop]
      have hpos : 0 < ((text.drop i).take (min (i + chunkSize) text.length - i)).length := by
        rw [hlen]; omega
      by_cases he : min (i + chunkSize) text.length = text.length
      · simp only [chunkLoop, hi, if_true, he, if_true, List.mem_singleton] at h
        subst h
        exact List.ne_nil_of_length_pos (by simpa [he] using hpos)
      · simp only [chunkLoop, hi, if_true, he, if_false, List.mem_cons] at h
        rcases h with h | h
        · subst h
          exact List.ne_nil_of_length_pos hpos
        · exact ih _ _ h
    · simp [chunkLoop, hi] at h

/-- Claim C7: for every non-empty text and every overlap strictly less than
chunkSize, the default chunker terminates (the loop result is independent of
any sufficient fuel bound), produces at least one chunk, its chunks are
exactly the windows at the start offsets, the start offsets advance by
exactly chunkSize - overlap each step, and they are strictly increasing. -/
theorem C7_chunker_terminates_starts_increase (text : JsStr) (chunkSize overlap : Nat)
    (hne : text ≠ []) (hov : overlap < chunkSize) :
    (∀ fuel, text.length ≤ fuel →
        chunkLoop text chunkSize overlap 0 fuel =
          chunkLoop text chunkSize overlap 0 text.length) ∧
    1 ≤ (simpleChunker text chunkSize overlap).length ∧
    simpleChunker text chunkSize overlap =
      (chunkStarts text chunkSize overlap).map
        (fun j => (text.drop j).take (min (j + chunkSize) text.length - j)) ∧
    List.Chain' (fun a b => b = a + (chunkSize - overlap))
      (chunkStarts text chunkSize overlap) ∧
    List.Pairwise (fun a b => a < b) (chunkStarts text chunkSize overlap) := by
  have hlen : 1 ≤ text.length := List.length_pos.mpr hne
  refine ⟨?_, ?_, ?_, ?_, ?_⟩
  · intro fuel hf
    exact chunkLoop_fuel_irrel text chunkSize overlap hov fuel text.length 0
      (by omega) (by omega)
  · unfold simpleChunker
    by_cases hfit : text.length ≤ chunkSize
    · simp [hfit]
    · simp only [hfit, if_false]
      obtain ⟨f, hf⟩ : ∃ f, text.length = f + 1 := ⟨text.length - 1, by omega⟩
      rw [hf]
      have h0 : 0 < text.length := by omega
      simp only [chunkLoop, h0, if_true]
      split <;> simp
  · unfold simpleChunker chunkStarts
    by_cases hfit : text.length ≤ chunkSize
    · simp only [hfit, if_true, List.map_cons, List.map_nil]
      have hmin : min (0 + chunkSize) text.length = text.length := by omega
      rw [hmin]
      simp
    · simp only [hfit, if_false]
      exact chunkLoop_eq_map_starts text chunkSize overlap text.length 0
  · unfold chunkStarts
    by_cases hfit : text.length ≤ chunkSize
    · simp [hfit]
    · simp only [hfit, if_false]
      exact chunkStartsLoop_chain text chunkSize overlap text.length 0
  · unfold chunkStarts
    by_cases hfit : text.length ≤ chunkSize
    · simp [hfit]
    · simp only [hfit, if_false]
      exact chunkStartsLoop_pairwise text chunkSize overlap hov text.length 0

/-- Witness for C7 at text "abc", chunkSize 2, overlap 1. -/
theorem C7_chunker_terminates_starts_increase_witness :
    (∀ fuel, (['a', 'b', 'c'] : JsStr).length ≤ fuel →
        chunkLoop ['a', 'b', 'c'] 2 1 0 fuel =
          chunkLoop ['a', 'b', 'c'] 2 1 0 (['a', 'b', 'c'] : JsStr).length) ∧
    1 ≤ (simpleChunker ['a', 'b', 'c'] 2 1).length ∧
    simpleChunker ['a', 'b', 'c'] 2 1 =
      (chunkStarts ['a', 'b', 'c'] 2 1).map
        (fun j => ((['a', 'b', 'c'] : JsStr).drop j).take
          (min (j + 2) (['a', 'b', 'c'] : JsStr).length - j)) ∧
    List.Chain' (fun a b => b = a + (2 - 1)) (chunkStarts ['a', 'b', 'c'] 2 1) ∧
    List.Pairwise (fun a b => a < b) (chunkStarts ['a', 'b', 'c'] 2 1) :=
  C7_chunker_terminates_starts_increase ['a', 'b', 'c'] 2 1 (by decide) (by decide)

/-- Claim C8: whenever the text fits in a single window, simpleChunker returns
exactly one chunk, equal to the whole input text. -/
theorem C8_single_chunk (text : JsStr) (chunkSize overlap : Nat)
    (hfit : text.length ≤ chunkSize) :
    simpleChunker text chunkSize overlap = [text] := by
  simp [simpleChunker, hfit]

/-- Witness for C8 at text "hi" with the default parameters. -/
theorem C8_single_chunk_witness :
    simpleChunker ['h', 'i'] 300 50 = [['h', 'i']] :=
  C8_single_chunk ['h', 'i'] 300 50 (by decide)

/-- Counterexample to claim C9 as stated: on the empty text the default
chunker returns a list containing the empty chunk (text.length = 0 ≤ 300, so
the whole (empty) text is returned as the single chunk). -/
theorem C9_counterexample :
    ¬ (∀ c ∈ simpleChunkerDefault [], c ≠ []) := by
  decide

/-- Claim C9 (amended): for every NON-EMPTY input text, every chunk returned
by the default chunker is a non-empty string. -/
theorem C9_chunks_nonempty (text : JsStr) (hne : text ≠ []) :
    ∀ c ∈ simpleChunkerDefault text, c ≠ [] := by
  intro c hc
  unfold simpleChunkerDefault simpleChunker at hc
  by_cases hfit : text.length ≤ 300
  · simp only [hfit, if_true, List.mem_singleton] at hc
    subst hc; exact hne
  · simp only [hfit, if_false] at hc
    exact chunkLoop_chunk_ne_nil text 300 50 (by omega) text.length 0 c hc

/-- Witness for the amended C9 at text "a" and its (sole) chunk "a". -/
theorem C9_chunks_nonempty_witness :
    (['a'] : JsStr) ∈ simpleChunkerDefault ['a'] ∧ (['a'] : JsStr) ≠ [] :=
  ⟨by decide, C9_chunks_nonempty ['a'] (by decide) ['a'] (by decide)⟩

/-- A JS payload/metadata value (the data model restricts metadata values to
scalars: strings, numbers, booleans). -/
inductive Value where
  | str (s : String)
  | num (n : Int)
  | bool (b : Bool)
deriving DecidableEq, Repr

/-- A JS object, modelled as an association list with unique keys. -/
abbrev Payload := List (String × Value)

/-- Setting a key on a JS object: overrides the value in place when the key
exists, appends otherwise (the semantics of object spread followed by an
overriding field). -/
def setKey : Payload → String → Value → Payload
  | [], k, v => [(k, v)]
  | (k', v') :: rest, k, v =>
    if k' = k then (k, v) :: rest else (k', v') :: setKey rest k v

/-- The payload built for chunk i in addDocument (provider source, lines
324-328): caller metadata spread first, then content (the chunk text) and
chunkIndex override/extend it. -/
def mkPointPayload (metadata : Payload) (chunk : JsStr) (i : Nat) : Payload :=
  setKey (setKey metadata "content" (Value.str (String.mk chunk))) "chunkIndex" (Value.num i)

/-- A Qdrant point as built by addDocument: fresh id, embedding vector,
payload.  Ids are modelled as the values of a fresh-id counter standing in
for uuidv4 (each call yields a new, never-repeated value). -/
structure Point where
  id : Nat
  vector : List Int
  payload : Payload
deriving DecidableEq, Repr

/-- The point-construction loop of addDocument (provider source, lines
313-330), expressed as recursion over the list of chunk indices: a chunk
whose embedding slot is falsy (absent) is skipped, otherwise a fresh id is
allocated and a point is built.  JS indexing past the end of the embeddings
array yields undefined, hence the getD ... none. -/
def buildPoints (metadata : Payload) (chunks : List JsStr)
    (embeddings : List (Option (List Int))) : List Nat → Nat → List Point × List Nat
  | [], _ => ([], [])
  | i :: rest, nextId =>
    match embeddings.getD i none with
    | none => buildPoints metadata chunks embeddings rest nextId
    | some v =>
      let pr := buildPoints metadata chunks embeddings rest (nextId + 1)
      ({ id := nextId, vector := v,
         payload := mkPointPayload metadata (chunks.getD i []) i } :: pr.1,
       nextId :: pr.2)

/-- The outcome of addDocument toward the caller and the store: the list of
upsert calls issued (each with its batch of points) and the returned ids. -/
structure AddDocResult where
  upsertCalls : List (List Point)
  returnedIds : List Nat
deriving DecidableEq, Repr

/-- addDocument after chunking (provider source, lines 300-345): empty chunk
list returns early with no store call; otherwise the chunks are embedded in
one batch, points are built skipping failed slots, an empty point set
returns early with no store call, and otherwise a single upsert call is
issued and the collected ids are returned.  The embeddings client is passed
as a function; nextId seeds the fresh-id counter. -/
def addDocumentChunks (embed : List JsStr → List (Option (List Int)))
    (nextId : Nat) (metadata : Payload) (chunks : List JsStr) : AddDocResult :=
  if chunks.length = 0 then ⟨[], []⟩
  else
    let embeddings := embed chunks
    let pr := buildPoints metadata chunks embeddings (List.range chunks.length) nextId
    if pr.1.length = 0 then ⟨[], []⟩
    else ⟨[pr.1], pr.2⟩

/-- Full addDocument (provider source, lines 295-350): chunk the content with
the default chunker, then proceed as above. -/
def addDocument (embed : List JsStr → List (Option (List Int)))
    (nextId : Nat) (content : JsStr) (metadata : Payload) : AddDocResult :=
  addDocumentChunks embed nextId metadata (simpleChunkerDefault content)

/-- The chunk indices whose embedding slot is present, in chunk order. -/
def presentIdx (embeddings : List (Option (List Int))) (n : Nat) : List Nat :=
  (List.range n).filter (fun i => (embeddings.getD i none).isSome)

theorem buildPoints_spec (metadata : Payload) (chunks : List JsStr)
    (embeddings : List (Option (List Int))) :
    ∀ idxs nextId,
      (buildPoints metadata chunks embeddings idxs nextId).2 =
        List.range' nextId
          (idxs.filter (fun i => (embeddings.getD i none).isSome)).length ∧
      (buildPoints metadata chunks embeddings idxs nextId).1.map Point.id =
        (buildPoints metadata chunks embeddings idxs nextId).2 ∧
      (buildPoints metadata chunks embeddings idxs nextId).1.map Point.payload =
        (idxs.filter (fun i => (embeddings.getD i none).isSome)).map
          (fun i => mkPointPayload metadata (chunks.getD i []) i) := by
  intro idxs
  induction idxs with
  | nil => intro nextId; simp [buildPoints]
  | cons i rest ih =>
    intro nextId
    cases h : embeddings.getD i none with
    | none =>
      have h' : embeddings[i]?.getD none = none := by
        rw [← List.getD_eq_getElem?_getD]; exact h
      have hcons : List.filter (fun j => (embeddings.getD j none).isSome) (i :: rest)
          = List.filter (fun j => (embeddings.getD j none).isSome) rest := by
        simp [List.filter_cons, h']
      simp only [buildPoints, h, hcons]
      exact ih nextId
    | some v =>
      have h' : embeddings[i]?.getD none = some v := by
        rw [← List.getD_eq_getElem?_getD]; exact h
      have hcons : List.filter (fun j => (embeddings.getD j none).isSome) (i :: rest)
          = i :: List.filter (fun j => (embeddings.getD j none).isSome) rest := by
        simp [List.filter_cons, h']
      obtain ⟨ih1, ih2, ih3⟩ := ih (nextId + 1)
      simp only [buildPoints, h, hcons, List.length_cons, List.range'_succ,
        List.map_cons]
      exact ⟨by simp [ih1], by simp [ih1, ih2], by simp [ih3]⟩

/-- Claim C1: with the embedding results aligned index-by-index with the
chunks, addDocument skips exactly the chunks whose embedding is absent and
returns one freshly generated id per present chunk, in chunk order (the ids
are the consecutive fresh values of the id supply); the upserted points carry
exactly those ids, and each one's payload is the caller metadata merged with
the chunk text under "content" and the chunk index under "chunkIndex". -/
theorem C1_addDocument_points (embed : List JsStr → List (Option (List Int)))
    (nextId : Nat) (metadata : Payload) (chunks : List JsStr)
    (halign : (embed chunks).length = chunks.length) :
    (addDocumentChunks embed nextId metadata chunks).returnedIds =
      List.range' nextId (presentIdx (embed chunks) chunks.length).length ∧
    (addDocumentChunks embed nextId metadata chunks).upsertCalls.flatten.map Point.id =
      (addDocumentChunks embed nextId metadata chunks).returnedIds ∧
    (addDocumentChunks embed nextId metadata chunks).upsertCalls.flatten.map Point.payload =
      (presentIdx (embed chunks) chunks.length).map
        (fun i => mkPointPayload metadata (chunks.getD i []) i) := by
  obtain ⟨h1, h2, h3⟩ :=
    buildPoints_spec metadata chunks (embed chunks) (List.range chunks.length) nextId
  unfold addDocumentChunks presentIdx
  by_cases hz : chunks.length = 0
  · have : chunks = [] := List.length_eq_zero.mp hz
    subst this
    simp
  · simp only [hz, if_false, reduceIte]
    set pr := buildPoints metadata chunks (embed chunks) (List.range chunks.length) nextId
      with hpr
    by_cases hp : pr.1.length = 0
    · have hnil : pr.1 = [] := List.length_eq_zero.mp hp
      have hids : pr.2 = [] := by rw [← h2, hnil, List.map_nil]
      have hpres : (List.filter (fun i => ((embed chunks).getD i none).isSome)
          (List.range chunks.length)).map
          (fun i => mkPointPayload metadata (chunks.getD i []) i) = [] := by
        rw [← h3, hnil, List.map_nil]
      have hpres' : List.filter (fun i => ((embed chunks).getD i none).isSome)
          (List.range chunks.length) = [] := List.map_eq_nil_iff.mp hpres
      rw [if_pos hp]
      refine ⟨by rw [hpres']; simp, rfl, by rw [hpres']; simp⟩
    · rw [if_neg hp]
      refine ⟨h1, ?_, ?_⟩
      · simpa using h2
      · simpa using h3

/-- An embeddings client that embeds every chunk (used as witness data). -/
def embedAll1 : List JsStr → List (Option (List Int)) :=
  fun cs => cs.map (fun _ => some [1])

/-- An embeddings client that fails on every chunk (used as witness data). -/
def embedNone : List JsStr → List (Option (List Int)) :=
  fun cs => cs.map (fun _ => none)

/-- Witness for C1 on two chunks, both embedded, fresh-id counter at 7. -/
theorem C1_addDocument_points_witness :
    (addDocumentChunks embedAll1 7 [] [['a'], ['b']]).returnedIds =
      List.range' 7 (presentIdx (embedAll1 [['a'], ['b']]) 2).length ∧
    (addDocumentChunks embedAll1 7 [] [['a'], ['b']]).upsertCalls.flatten.map Point.id =
      (addDocumentChunks embedAll1 7 [] [['a'], ['b']]).returnedIds ∧
    (addDocumentChunks embedAll1 7 [] [['a'], ['b']]).upsertCalls.flatten.map Point.payload =
      (presentIdx (embedAll1 [['a'], ['b']]) 2).map
        (fun i => mkPointPayload [] (([['a'], ['b']] : List JsStr).getD i []) i) :=
  C1_addDocument_points embedAll1 7 [] [['a'], ['b']] (by decide)

theorem buildPoints_all_none (metadata : Payload) (chunks : List JsStr)
    (embeddings : List (Option (List Int)))
    (hall : ∀ e ∈ embeddings, e = none) :
    ∀ idxs nextId, buildPoints metadata chunks embeddings idxs nextId = ([], []) := by
  have hgetD : ∀ i, embeddings.getD i none = none := by
    intro i
    rcases hq : embeddings[i]? with _ | e
    · simp [List.getD, hq]
    · have he : e ∈ embeddings := by
        have := List.getElem?_eq_some_iff.mp hq
        obtain ⟨hlt, hget⟩ := this
        exact hget ▸ List.getElem_mem hlt
      have : e = none := hall e he
      simp [List.getD, hq, this]
  intro idxs
  induction idxs with
  | nil => intro nextId; rfl
  | cons i rest ih =>
    intro nextId
    simp only [buildPoints, hgetD i]
    exact ih nextId

/-- Claim C3: addDocument is a no-op toward the store (no upsert call) and
returns an empty id list whenever the point set is empty: when chunking
yields zero chunks, and when every chunk's embedding is absent. -/
theorem C3_addDocument_empty_noop (embed : List JsStr → List (Option (List Int)))
    (nextId : Nat) (metadata : Payload) (content : JsStr) :
    addDocumentChunks embed nextId metadata [] = ⟨[], []⟩ ∧
    ((∀ e ∈ embed (simpleChunkerDefault content), e = none) →
      addDocument embed nextId content metadata = ⟨[], []⟩) := by
  constructor
  · rfl
  · intro hall
    unfold addDocument addDocumentChunks
    by_cases hz : (simpleChunkerDefault content).length = 0
    · simp [hz]
    · simp only [hz, if_false, reduceIte]
      rw [buildPoints_all_none metadata (simpleChunkerDefault content)
        (embed (simpleChunkerDefault content)) hall]
      simp

/-- Witness for C3: an embeddings client failing on every chunk; content "a". -/
theorem C3_addDocument_empty_noop_witness :
    addDocumentChunks embedNone 0 [] [] = ⟨[], []⟩ ∧
    addDocument embedNone 0 ['a'] [] = ⟨[], []⟩ :=
  ⟨(C3_addDocument_empty_noop embedNone 0 [] ['a']).1,
   (C3_addDocument_empty_noop embedNone 0 [] ['a']).2 (by decide)⟩

/-- JS property read on an object with unique keys. -/
def lookupKey : Payload → String → Option Value
  | [], _ => none
  | (k', v) :: rest, k => if k' = k then some v else lookupKey rest k

/-- JS delete of a property on an object with unique keys. -/
def removeKey : Payload → String → Payload
  | [], _ => []
  | (k', v) :: rest, k => if k' = k then removeKey rest k else (k', v) :: removeKey rest k

/-- A hit returned by the backend similarity search: score plus the payload
(possibly absent). -/
structure SearchHit where
  score : Int
  payload : Option Payload
deriving DecidableEq, Repr

/-- The RetrievedChunk record handed back to callers. -/
structure RetrievedChunk where
  content : Value
  score : Int
  metadata : Option Payload
deriving DecidableEq, Repr

/-- The hit-to-RetrievedChunk mapping of retrieveContext (provider source,
lines 374-386): spread the (possibly absent) payload, take its content field
(empty string when absent), delete content from the copy, and keep the
remaining fields as metadata only when at least one field remains. -/
def mapHit (h : SearchHit) : RetrievedChunk :=
  let payload := h.payload.getD []
  let content := (lookupKey payload "content").getD (Value.str "")
  let metadata := removeKey payload "content"
  { content := content, score := h.score,
    metadata := if 0 < metadata.length then some metadata else none }

/-- Step 3 of retrieveContext: map every search hit. -/
def retrieveContextResults (hits : List SearchHit) : List RetrievedChunk :=
  hits.map mapHit

/-- The request retrieveContext issues to the backend search (provider
source, lines 362-369). -/
structure SearchReq where
  vector : List Int
  limit : Nat
  scoreThreshold : Option Int
  withPayload : Bool
  withVector : Bool
deriving DecidableEq, Repr

/-- Per-call retrieval options (types source, lines 74-81). -/
structure RetrievalOptions where
  limit : Option Nat
  scoreThreshold : Option Int
  filter : Option Payload
deriving DecidableEq, Repr

/-- Provider retrieveContext (provider source, lines 352-393): fail fast when
the query embedding is absent, otherwise search with the caller limit
(default 5) and optional score threshold, payload requested, vectors not,
and map the hits.  The commented-out filter forwarding of the source is
exactly what claim C10 is about: opts.filter is not consulted.  The embedding
of the query text and the backend search are passed as functions. -/
def providerRetrieveContext (embedQuery : Option (List Int))
    (search : SearchReq → List SearchHit) (opts : RetrievalOptions) :
    Except String (List RetrievedChunk) :=
  match embedQuery with
  | none => Except.error "Failed to generate embedding for the query text."
  | some qv =>
      Except.ok (retrieveContextResults
        (search { vector := qv, limit := opts.limit.getD 5,
                  scoreThreshold := opts.scoreThreshold,
                  withPayload := true, withVector := false }))

/-- The facade configuration defaults relevant to retrieval (after
validateAndBuildConfig: defaultRetrievalLimit is always set, the score
threshold may stay absent). -/
structure RagDefaults where
  defaultRetrievalLimit : Nat
  defaultScoreThreshold : Option Int
deriving DecidableEq, Repr

/-- Facade retrieveContext (facade source, lines 160-178): merge per-call
options over configured defaults and delegate to the provider, passing the
filter through untouched. -/
def ragRetrieveContext (cfg : RagDefaults) (embedQuery : Option (List Int))
    (search : SearchReq → List SearchHit) (opts : Option RetrievalOptions) :
    Except String (List RetrievedChunk) :=
  let finalOptions : RetrievalOptions :=
    { limit := some ((opts.bind RetrievalOptions.limit).getD cfg.defaultRetrievalLimit),
      scoreThreshold := (opts.bind RetrievalOptions.scoreThreshold).or cfg.defaultScoreThreshold,
      filter := opts.bind RetrievalOptions.filter }
  providerRetrieveContext embedQuery search finalOptions

/-- Claim C5: retrieveContext maps each hit positionally; the produced
chunk's content is the payload's content field when present and the empty
string when absent (an absent payload counts as absent field); its metadata
is the payload with content removed, or nothing at all when no field
remains; the score is passed through. -/
theorem C5_retrieveContext_mapping (hits : List SearchHit) (h : SearchHit)
    (hmem : h ∈ hits) :
    retrieveContextResults hits = hits.map mapHit ∧
    mapHit h ∈ retrieveContextResults hits ∧
    (mapHit h).score = h.score ∧
    (∀ v, lookupKey (h.payload.getD []) "content" = some v → (mapHit h).content = v) ∧
    (lookupKey (h.payload.getD []) "content" = none → (mapHit h).content = Value.str "") ∧
    ((removeKey (h.payload.getD []) "content").length = 0 → (mapHit h).metadata = none) ∧
    (0 < (removeKey (h.payload.getD []) "content").length →
      (mapHit h).metadata = some (removeKey (h.payload.getD []) "content")) := by
  refine ⟨rfl, List.mem_map_of_mem mapHit hmem, rfl, ?_, ?_, ?_, ?_⟩
  · intro v hv
    simp [mapHit, hv]
  · intro hv
    simp [mapHit, hv]
  · intro hz
    simp only [mapHit]
    rw [if_neg (by omega)]
  · intro hz
    simp only [mapHit]
    rw [if_pos hz]

/-- Witness for C5 on a hit whose payload carries content and one extra
field. -/
theorem C5_retrieveContext_mapping_witness :
    retrieveContextResults [⟨5, some [("content", Value.str "x"), ("a", Value.num 1)]⟩] =
      ([⟨5, some [("content", Value.str "x"), ("a", Value.num 1)]⟩] :
        List SearchHit).map mapHit ∧
    mapHit ⟨5, some [("content", Value.str "x"), ("a", Value.num 1)]⟩ ∈
      retrieveContextResults [⟨5, some [("content", Value.str "x"), ("a", Value.num 1)]⟩] ∧
    (mapHit ⟨5, some [("content", Value.str "x"), ("a", Value.num 1)]⟩).score =
      (⟨5, some [("content", Value.str "x"), ("a", Value.num 1)]⟩ : SearchHit).score ∧
    (∀ v, lookupKey ((⟨5, some [("content", Value.str "x"), ("a", Value.num 1)]⟩ :
        SearchHit).payload.getD []) "content" = some v →
      (mapHit ⟨5, some [("content", Value.str "x"), ("a", Value.num 1)]⟩).content = v) ∧
    (lookupKey ((⟨5, some [("content", Value.str "x"), ("a", Value.num 1)]⟩ :
        SearchHit).payload.getD []) "content" = none →
      (mapHit ⟨5, some [("content", Value.str "x"), ("a", Value.num 1)]⟩).content =
        Value.str "") ∧
    ((removeKey ((⟨5, some [("content", Value.str "x"), ("a", Value.num 1)]⟩ :
        SearchHit).payload.getD []) "content").length = 0 →
      (mapHit ⟨5, some [("content", Value.str "x"), ("a", Value.num 1)]⟩).metadata = none) ∧
    (0 < (removeKey ((⟨5, some [("content", Value.str "x"), ("a", Value.num 1)]⟩ :
        SearchHit).payload.getD []) "content").length →
      (mapHit ⟨5, some [("content", Value.str "x"), ("a", Value.num 1)]⟩).metadata =
        some (removeKey ((⟨5, some [("content", Value.str "x"), ("a", Value.num 1)]⟩ :
          SearchHit).payload.getD []) "content")) :=
  C5_retrieveContext_mapping
    [⟨5, some [("content", Value.str "x"), ("a", Value.num 1)]⟩]
    ⟨5, some [("content", Value.str "x"), ("a", Value.num 1)]⟩ (by decide)

/-- Claim C10: two retrieveContext calls that differ only in options.filter
behave identically, both at the provider and through the facade: the filter
is never forwarded to the backend search. -/
theorem C10_filter_ignored (embedQuery : Option (List Int))
    (search : SearchReq → List SearchHit) (cfg : RagDefaults)
    (o1 o2 : RetrievalOptions)
    (hl : o1.limit = o2.limit) (ht : o1.scoreThreshold = o2.scoreThreshold) :
    providerRetrieveContext embedQuery search o1 =
      providerRetrieveContext embedQuery search o2 ∧
    ragRetrieveContext cfg embedQuery search (some o1) =
      ragRetrieveContext cfg embedQuery search (some o2) := by
  constructor
  · unfold providerRetrieveContext
    rw [hl, ht]
  · unfold ragRetrieveContext providerRetrieveContext
    simp only [Option.some_bind]
    rw [hl, ht]

/-- Witness for C10: same limit and threshold, one call with a filter and one
without, over a backend returning no hits. -/
theorem C10_filter_ignored_witness :
    providerRetrieveContext (some [1]) (fun _ => []) ⟨some 3, some 2, some [("a", Value.str "b")]⟩ =
      providerRetrieveContext (some [1]) (fun _ => []) ⟨some 3, some 2, none⟩ ∧
    ragRetrieveContext ⟨5, none⟩ (some [1]) (fun _ => [])
        (some ⟨some 3, some 2, some [("a", Value.str "b")]⟩) =
      ragRetrieveContext ⟨5, none⟩ (some [1]) (fun _ => [])
        (some ⟨some 3, some 2, none⟩) :=
  C10_filter_ignored (some [1]) (fun _ => []) ⟨5, none⟩
    ⟨some 3, some 2, some [("a", Value.str "b")]⟩ ⟨some 3, some 2, none⟩ rfl rfl

/-- A Qdrant point id as a JS value: a number or a string. -/
inductive JsId where
  | num (n : Int)
  | str (s : String)
deriving DecidableEq, Repr

/-- JS truthiness of an id value: 0 and the empty string are falsy. -/
def JsId.truthy : JsId → Bool
  | .num n => n != 0
  | .str s => s != ""

/-- JS truthiness of the next_page_offset value; undefined/null is none. -/
def optTruthy : Option JsId → Bool
  | none => false
  | some o => o.truthy

/-- One field-equals-value condition of a Qdrant filter. -/
structure Condition where
  key : String
  value : Value
deriving DecidableEq, Repr

/-- The request body of one scroll call (provider source, lines 403-414). -/
structure ScrollReq where
  must : List Condition
  limit : Nat
  offset : Option JsId
  withPayload : Bool
  withVector : Bool
deriving DecidableEq, Repr

/-- A stored point as returned by a scroll page. -/
structure QdrantRecord where
  id : JsId
  payload : Option Payload
  vector : Option (List Int)
deriving DecidableEq, Repr

/-- A scroll page: its points and the continuation cursor. -/
structure ScrollResp where
  points : List QdrantRecord
  next : Option JsId
deriving DecidableEq, Repr

/-- The scroll request getDocumentsByMetadata builds on every iteration:
the translated must-conjunction, page size 250, payload and vectors on. -/
def mkScrollReq (conds : List Condition) (off : Option JsId) : ScrollReq :=
  { must := conds, limit := 250, offset := off, withPayload := true, withVector := true }

/-- The do-while scroll loop of getDocumentsByMetadata (provider source,
lines 402-421): fetch a page, append its points when non-empty, and repeat
while the returned next_page_offset is truthy.  The result also carries the
trace of requests issued; the Nat is fuel (the JS loop need not terminate
against a backend that keeps returning cursors, so the model returns none
when the fuel runs out). -/
def scrollLoop (client : ScrollReq → ScrollResp) (conds : List Condition) :
    Option JsId → Nat → Option (List QdrantRecord × List ScrollReq)
  | _, 0 => none
  | off, fuel + 1 =>
    let req := mkScrollReq conds off
    let resp := client req
    let page := if 0 < resp.points.length then resp.points else []
    if optTruthy resp.next then
      match scrollLoop client conds resp.next fuel with
      | none => none
      | some (pts, reqs) => some (page ++ pts, req :: reqs)
    else
      some (page, [req])

/-- The record shape getDocumentsByMetadata returns per point (provider
source, lines 425-430): id, the payload's content field, the whole payload
as metadata, and the vector. -/
structure OutRecord where
  id : JsId
  content : Option Value
  metadata : Option Payload
  vector : Option (List Int)
deriving DecidableEq, Repr

def recToOut (p : QdrantRecord) : OutRecord :=
  { id := p.id, content := p.payload.bind (fun pl => lookupKey pl "content"),
    metadata := p.payload, vector := p.vector }

/-- getDocumentsByMetadata (provider source, lines 395-436): translate the
flat equality filter to a must-conjunction, run the scroll loop from no
offset, and map the accumulated points.  The backend client is passed as a
function; the request trace is returned alongside the result. -/
def getDocumentsByMetadata (client : ScrollReq → ScrollResp) (filter : Payload)
    (fuel : Nat) : Option (List OutRecord × List ScrollReq) :=
  let conds := filter.map (fun kv => Condition.mk kv.1 kv.2)
  match scrollLoop client conds none fuel with
  | none => none
  | some (pts, reqs) => some (pts.map recToOut, reqs)

theorem page_guard_eq (l : List QdrantRecord) :
    (if 0 < l.length then l else []) = l := by
  cases l <;> simp

theorem scrollLoop_spec (client : ScrollReq → ScrollResp) (conds : List Condition) :
    ∀ fuel off pts reqs,
      scrollLoop client conds off fuel = some (pts, reqs) →
      (∀ r ∈ reqs, r.must = conds ∧ r.limit = 250 ∧
        r.withPayload = true ∧ r.withVector = true) ∧
      pts = (reqs.map (fun r => (client r).points)).flatten ∧
      reqs.head? = some (mkScrollReq conds off) ∧
      List.Chain' (fun a b => (client a).next = b.offset ∧
        optTruthy (client a).next = true) reqs ∧
      (∀ r, reqs.getLast? = some r → optTruthy (client r).next = false) := by
  intro fuel
  induction fuel with
  | zero => intro off pts reqs h; exact absurd h (by simp [scrollLoop])
  | succ f ih =>
    intro off pts reqs h
    simp only [scrollLoop] at h
    by_cases htr : optTruthy (client (mkScrollReq conds off)).next
    · rw [if_pos htr] at h
      cases hrec : scrollLoop client conds (client (mkScrollReq conds off)).next f with
      | none => rw [hrec] at h; exact absurd h (by simp)
      | some pr =>
        obtain ⟨pts', reqs'⟩ := pr
        rw [hrec] at h
        obtain ⟨hpts, hreqs⟩ : _ ∧ _ := by
          have := h
          simp only [Option.some.injEq, Prod.mk.injEq] at this
          exact this
        obtain ⟨ih1, ih2, ih3, ih4, ih5⟩ := ih _ _ _ hrec
        subst hpts hreqs
        refine ⟨?_, ?_, ?_, ?_, ?_⟩
        · intro r hr
          rcases List.mem_cons.mp hr with hr | hr
          · subst hr; exact ⟨rfl, rfl, rfl, rfl⟩
          · exact ih1 r hr
        · simp only [List.map_cons, List.flatten_cons, page_guard_eq]
          rw [← ih2]
        · rfl
        · refine List.Chain'.cons' ih4 ?_
          intro y hy
          rw [Option.mem_def, ih3] at hy
          injection hy with hy
          subst hy
          exact ⟨rfl, htr⟩
        · intro r hr
          cases reqs' with
          | nil => simp at ih3
          | cons x xs =>
            rw [List.getLast?_cons_cons] at hr
            exact ih5 r hr
    · rw [if_neg htr] at h
      simp only [Option.some.injEq, Prod.mk.injEq] at h
      obtain ⟨hpts, hreqs⟩ := h
      subst hpts hreqs
      refine ⟨?_, ?_, rfl, ?_, ?_⟩
      · intro r hr
        rcases List.mem_cons.mp hr with hr | hr
        · subst hr; exact ⟨rfl, rfl, rfl, rfl⟩
        · simp at hr
      · simp [page_guard_eq]
      · simp
      · intro r hr
        simp only [List.getLast?_singleton, Option.some.injEq] at hr
        subst hr
        exact eq_false_of_ne_true htr

/-- Claim C2 (amended): getDocumentsByMetadata translates the flat equality
filter into a must-conjunction sent with every request, requests pages of
fixed size 250 with payloads and vectors, accumulates the points of every
page in order, starts from no offset and follows the returned continuation
cursor while it is truthy, stopping when the backend returns no cursor OR a
falsy cursor (the number 0 or the empty string); when the first page is
empty and carries no cursor the loop exits with an empty result; the
returned records include the vectors of the accumulated points. -/
theorem C2_scroll_pagination (client : ScrollReq → ScrollResp) (filter : Payload)
    (fuel : Nat) (res : List OutRecord) (reqs : List ScrollReq)
    (h : getDocumentsByMetadata client filter fuel = some (res, reqs)) :
    (∀ r ∈ reqs, r.must = filter.map (fun kv => Condition.mk kv.1 kv.2) ∧
      r.limit = 250 ∧ r.withPayload = true ∧ r.withVector = true) ∧
    res = ((reqs.map (fun r => (client r).points)).flatten).map recToOut ∧
    res.map OutRecord.vector =
      ((reqs.map (fun r => (client r).points)).flatten).map QdrantRecord.vector ∧
    reqs.head? = some (mkScrollReq (filter.map (fun kv => Condition.mk kv.1 kv.2)) none) ∧
    List.Chain' (fun a b => (client a).next = b.offset ∧
      optTruthy (client a).next = true) reqs ∧
    (∀ r, reqs.getLast? = some r → optTruthy (client r).next = false) ∧
    ((client (mkScrollReq (filter.map (fun kv => Condition.mk kv.1 kv.2)) none)).points = [] →
      (client (mkScrollReq (filter.map (fun kv => Condition.mk kv.1 kv.2)) none)).next = none →
      res = []) := by
  simp only [getDocumentsByMetadata] at h
  cases hloop : scrollLoop client (filter.map (fun kv => Condition.mk kv.1 kv.2)) none fuel with
  | none => rw [hloop] at h; exact absurd h (by simp)
  | some pr =>
    obtain ⟨pts, reqs'⟩ := pr
    rw [hloop] at h
    simp only [Option.some.injEq, Prod.mk.injEq] at h
    obtain ⟨hres, hreqs⟩ := h
    subst hres hreqs
    obtain ⟨s1, s2, s3, s4, s5⟩ := scrollLoop_spec client _ fuel none pts reqs' hloop
    refine ⟨s1, by rw [s2], ?_, s3, s4, s5, ?_⟩
    · rw [s2, List.map_map]
      rfl
    · intro hempty hnone
      have hone : reqs' = [mkScrollReq (filter.map (fun kv => Condition.mk kv.1 kv.2)) none] := by
        cases reqs' with
        | nil => simp at s3
        | cons x xs =>
          have hx : x = mkScrollReq (filter.map (fun kv => Condition.mk kv.1 kv.2)) none := by
            simpa using s3
          cases xs with
          | nil => rw [hx]
          | cons y ys =>
            have hrel := (List.chain'_cons.mp s4).1
            rw [hx] at hrel
            rw [hnone] at hrel
            exact absurd hrel.2 (by simp [optTruthy])
      rw [hone] at s2
      rw [s2]
      simp [hempty]

/-- Backend used as witness data for C2: a single empty page, no cursor. -/
def emptyScrollClient : ScrollReq → ScrollResp := fun _ => ⟨[], none⟩

/-- Witness for C2 on the empty-backend client with an empty filter. -/
theorem C2_scroll_pagination_witness :
    (∀ r ∈ [mkScrollReq (([] : Payload).map (fun kv => Condition.mk kv.1 kv.2)) none],
      r.must = ([] : Payload).map (fun kv => Condition.mk kv.1 kv.2) ∧
      r.limit = 250 ∧ r.withPayload = true ∧ r.withVector = true) ∧
    ([] : List OutRecord) =
      ((([mkScrollReq (([] : Payload).map (fun kv => Condition.mk kv.1 kv.2)) none]).map
        (fun r => (emptyScrollClient r).points)).flatten).map recToOut ∧
    ([] : List OutRecord).map OutRecord.vector =
      ((([mkScrollReq (([] : Payload).map (fun kv => Condition.mk kv.1 kv.2)) none]).map
        (fun r => (emptyScrollClient r).points)).flatten).map QdrantRecord.vector ∧
    ([mkScrollReq (([] : Payload).map (fun kv => Condition.mk kv.1 kv.2)) none]).head? =
      some (mkScrollReq (([] : Payload).map (fun kv => Condition.mk kv.1 kv.2)) none) ∧
    List.Chain' (fun a b => (emptyScrollClient a).next = b.offset ∧
      optTruthy (emptyScrollClient a).next = true)
      [mkScrollReq (([] : Payload).map (fun kv => Condition.mk kv.1 kv.2)) none] ∧
    (∀ r, ([mkScrollReq (([] : Payload).map (fun kv => Condition.mk kv.1 kv.2)) none]).getLast? =
        some r → optTruthy (emptyScrollClient r).next = false) ∧
    ((emptyScrollClient (mkScrollReq (([] : Payload).map (fun kv => Condition.mk kv.1 kv.2)) none)).points = [] →
      (emptyScrollClient (mkScrollReq (([] : Payload).map (fun kv => Condition.mk kv.1 kv.2)) none)).next = none →
      ([] : List OutRecord) = []) :=
  C2_scroll_pagination emptyScrollClient [] 1 []
    [mkScrollReq (([] : Payload).map (fun kv => Condition.mk kv.1 kv.2)) none] (by decide)

/-- Backend used as counterexample data for C2: the first page returns one
point together with the continuation cursor 0 (a legitimate Qdrant point
id), and the page at offset 0 holds a second point and ends the scan. -/
def zeroCursorClient : ScrollReq → ScrollResp := fun req =>
  match req.offset with
  | none => ⟨[⟨JsId.num 1, none, none⟩], some (JsId.num 0)⟩
  | some _ => ⟨[⟨JsId.num 2, none, none⟩], none⟩

/-- Counterexample to claim C2 as stated: against zeroCursorClient the first
response carries a continuation cursor (the id 0), yet the loop stops after
the first page — 0 is falsy in JS — so the trace has a single request and
the point behind the cursor never reaches the result, contradicting
"follows the returned continuation cursor until the backend returns no
cursor". -/
theorem C2_counterexample :
    (zeroCursorClient (mkScrollReq [] none)).next = some (JsId.num 0) ∧
    getDocumentsByMetadata zeroCursorClient [] 5 =
      some ([recToOut ⟨JsId.num 1, none, none⟩], [mkScrollReq [] none]) := by
  decide

/-- Whether a pattern occurs anywhere in a character list (no JS regex is
needed for the /not found/i test: the pattern is a literal). -/
def startsWithPat : List Char → List Char → Bool
  | [], _ => true
  | _ :: _, [] => false
  | p :: ps, c :: cs => p == c && startsWithPat ps cs

def containsPat (pat : List Char) : List Char → Bool
  | [] => startsWithPat pat []
  | c :: cs => startsWithPat pat (c :: cs) || containsPat pat cs

/-- The /not found/i test of deleteStorage (provider source, line 509). -/
def notFoundMsg (msg : String) : Bool :=
  containsPat ("not found".data) (msg.data.map Char.toLower)

/-- What the backend deleteCollection call does: it returns normally with a
Bool, or it throws with a message. -/
inductive DeleteOutcome where
  | ok (result : Bool)
  | err (msg : String)
deriving DecidableEq, Repr

/-- deleteStorage (provider source, lines 496-515): a normal return succeeds
whatever the Bool says (false only logs a warning); a thrown error whose
message matches /not found/i is swallowed; any other error is rethrown
wrapped with operation context. -/
def deleteStorage (outcome : DeleteOutcome) : Except String Unit :=
  match outcome with
  | .ok _ => .ok ()
  | .err msg =>
    if notFoundMsg msg then .ok ()
    else .error ("Qdrant collection deletion failed: " ++ msg)

/-- The external Qdrant client's deleteCollection against a collection-
existence state, per the interface contract of spec section 6: it deletes
the collection when present and returns whether it existed. -/
def qdrantDeleteCollection (collectionExists : Bool) : Bool × DeleteOutcome :=
  (false, .ok collectionExists)

/-- deleteStorage run against the stateful client model: the new existence
state and the call's outcome. -/
def deleteStorageOn (collectionExists : Bool) : Bool × Except String Unit :=
  ((qdrantDeleteCollection collectionExists).1,
   deleteStorage (qdrantDeleteCollection collectionExists).2)

/-- Claim C6: deleteStorage succeeds when the backend reports the collection
absent (Bool result false, or a thrown not-found error, case-insensitively);
every other thrown error is raised wrapped; and two consecutive calls both
succeed, whatever the initial collection state. -/
theorem C6_deleteStorage_idempotent :
    (∀ b, deleteStorage (.ok b) = .ok ()) ∧
    (∀ msg, notFoundMsg msg = true → deleteStorage (.err msg) = .ok ()) ∧
    (∀ msg, notFoundMsg msg = false →
      deleteStorage (.err msg) = .error ("Qdrant collection deletion failed: " ++ msg)) ∧
    (∀ collectionExists : Bool, (deleteStorageOn collectionExists).2 = .ok () ∧
      (deleteStorageOn (deleteStorageOn collectionExists).1).2 = .ok ()) := by
  refine ⟨fun b => rfl, ?_, ?_, ?_⟩
  · intro msg hm
    simp [deleteStorage, hm]
  · intro msg hm
    simp [deleteStorage, hm]
  · intro collectionExists
    exact ⟨rfl, rfl⟩

/-- Witness for C6: a not-found message (mixed case) succeeds, an unrelated
message raises the wrapped error, and two consecutive calls starting from an
existing collection both succeed. -/
theorem C6_deleteStorage_idempotent_witness :
    deleteStorage (.ok false) = .ok () ∧
    deleteStorage (.err "Collection Not Found") = .ok () ∧
    deleteStorage (.err "connection refused") =
      .error ("Qdrant collection deletion failed: " ++ "connection refused") ∧
    ((deleteStorageOn true).2 = .ok () ∧
      (deleteStorageOn (deleteStorageOn true).1).2 = .ok ()) :=
  ⟨C6_deleteStorage_idempotent.1 false,
   C6_deleteStorage_idempotent.2.1 "Collection Not Found" (by decide),
   C6_deleteStorage_idempotent.2.2.1 "connection refused" (by decide),
   C6_deleteStorage_idempotent.2.2.2 true⟩

/-- The methods defined on the RAGModule facade class (facade source, lines
12-207): the complete list of its public operations. -/
def ragModuleMethods : List String :=
  ["addDocument", "retrieveContext", "deleteDocumentsByIds",
   "deleteDocumentsByMetadata", "deleteStorage"]

/-- The public operations declared by RAGModuleInterface (types source,
lines 133-171), the contract the facade class declares it implements. -/
def ragModuleInterfaceOps : List String :=
  ["addDocument", "retrieveContext", "deleteDocumentsByIds",
   "deleteDocumentsByMetadata", "getDocumentsByMetadata", "deleteStorage"]

/-- Claim C4 names a facade operation the facade class does not define:
RAGModuleInterface (which the class declares it implements) requires
getDocumentsByMetadata, but the RAGModule class has no such method, so the
facade cannot delegate it to the provider. -/
theorem C4_facade_method_missing :
    "getDocumentsByMetadata" ∈ ragModuleInterfaceOps ∧
    "getDocumentsByMetadata" ∉ ragModuleMethods := by
  decide

end RagSpec
